import Mathlib

/-!
Verification of the contact-whitelist generator
(`python-scripts/generate-contact-whitelist.py`).

The script reads a three-column CSV (relationship, name, email), collects
the `email` column into a set, partitions the set into domain patterns
(values starting with `@`) and exact emails (everything else), sorts both
partitions, and renders two filter documents: a protonmail sieve rule and a
gmail `NOT` expression.

The embedding below mirrors the Python code:
* `csv.DictReader` with explicit field names yields, for each row, the third
  field when present and `None` otherwise; this is `rawEmail`.
* `set(...)` deduplicates; since Python set iteration order is unspecified,
  the core pipeline `generate_core` is stated over an arbitrary list of the
  collected values, and order-independence is proved separately.
* `list.sort()` on strings sorts ascending by Unicode code points; this is
  `sortAsc`, built on the code-point comparison `charListLe`.
* `json.dumps` on a list of strings (default `ensure_ascii=True`) is
  `jsonDumps`, with the escaping rules of Python's json encoder.
-/

namespace ContactWhitelist

/-- One row of the three-column contact table (columns `relationship`,
`name`, `email`, supplied positionally to `csv.DictReader`). -/
structure ContactRow where
  relationship : String
  name : String
  email : String
deriving DecidableEq

/-- Python `value.startswith(pre)`: `pre` is a prefix of `value`. -/
def startswith (s pre : String) : Bool :=
  pre.data.isPrefixOf s.data

/-- Code-point lexicographic comparison on character lists: the comparison
Python uses on `str` values (and hence `list.sort()` uses). -/
def charListLe : List Char → List Char → Bool
  | [], _ => true
  | _ :: _, [] => false
  | a :: as, b :: bs =>
    if a < b then true
    else if b < a then false
    else charListLe as bs

/-- Python string `<=`: code-point lexicographic order. -/
def strLe (a b : String) : Bool :=
  charListLe a.data b.data

/-- Python `list.sort()` on strings: ascending code-point lexicographic
order.  (Insertion sort produces the same list as any stable sort of the
same comparison.) -/
def sortAsc (l : List String) : List String :=
  l.insertionSort fun a b => strLe a b = true

instance : IsTotal String fun a b => strLe a b = true := by
  constructor
  intro a b
  show charListLe a.data b.data = true ∨ charListLe b.data a.data = true
  generalize a.data = as
  generalize b.data = bs
  induction as generalizing bs with
  | nil => left; rfl
  | cons a' as ih =>
    cases bs with
    | nil => right; rfl
    | cons b' bs =>
      by_cases hab : a' < b'
      · left; simp [charListLe, hab]
      · by_cases hba : b' < a'
        · right; simp [charListLe, hba]
        · rcases ih bs with h | h
          · left; simp [charListLe, hab, hba, h]
          · right; simp [charListLe, hab, hba, h]

instance : IsTrans String fun a b => strLe a b = true := by
  constructor
  intro a b c
  show charListLe a.data b.data = true → charListLe b.data c.data = true →
    charListLe a.data c.data = true
  generalize a.data = as
  generalize b.data = bs
  generalize c.data = cs
  induction as generalizing bs cs with
  | nil => intro _ _; rfl
  | cons a' as ih =>
    intro h1 h2
    cases bs with
    | nil => simp [charListLe] at h1
    | cons b' bs =>
      cases cs with
      | nil => simp [charListLe] at h2
      | cons c' cs =>
        simp only [charListLe] at h1 h2 ⊢
        by_cases hab : a' < b'
        · by_cases hbc : b' < c'
          · simp [lt_trans hab hbc]
          · by_cases hcb : c' < b'
            · simp [hbc, hcb] at h2
            · have heq : b' = c' := le_antisymm (not_lt.1 hcb) (not_lt.1 hbc)
              subst heq
              simp [hab]
        · by_cases hba : b' < a'
          · simp [hab, hba] at h1
          · have heq : a' = b' := le_antisymm (not_lt.1 hba) (not_lt.1 hab)
            subst heq
            simp only [lt_irrefl, if_false] at h1
            by_cases hac : a' < c'
            · simp [hac]
            · by_cases hca : c' < a'
              · simp [hac, hca] at h2
              · have heq : a' = c' := le_antisymm (not_lt.1 hca) (not_lt.1 hac)
                subst heq
                simp only [lt_irrefl, if_false] at h2 ⊢
                exact ih bs cs h1 h2

instance : IsAntisymm String fun a b => strLe a b = true := by
  constructor
  intro a b h1 h2
  have key : ∀ as bs : List Char,
      charListLe as bs = true → charListLe bs as = true → as = bs := by
    intro as
    induction as with
    | nil =>
      intro bs h1 h2
      cases bs with
      | nil => rfl
      | cons b' bs => simp [charListLe] at h2
    | cons a' as ih =>
      intro bs h1 h2
      cases bs with
      | nil => simp [charListLe] at h1
      | cons b' bs =>
        simp only [charListLe] at h1 h2
        by_cases hab : a' < b'
        · simp [lt_asymm hab, hab] at h2
        · by_cases hba : b' < a'
          · simp [hab, hba] at h1
          · have heq : a' = b' := le_antisymm (not_lt.1 hba) (not_lt.1 hab)
            subst heq
            simp only [lt_irrefl, if_false] at h1 h2
            rw [ih bs h1 h2]
  exact String.toList_inj.mp (key a.data b.data h1 h2)

/-- `domains = list([value for value in values if value.startswith("@")])`. -/
def partitionDomains (values : List String) : List String :=
  values.filter fun value => startswith value "@"

/-- `emails = list([value for value in values if value not in domains])`. -/
def partitionEmails (values : List String) : List String :=
  values.filter fun value => !((partitionDomains values).contains value)

/-- Python `sep.join(xs)`. -/
def joinSep (sep : String) : List String → String
  | [] => ""
  | [x] => x
  | x :: y :: rest => x ++ sep ++ joinSep sep (y :: rest)

/-- One hexadecimal digit, lowercase, as produced by Python's json encoder. -/
def hexDigit (n : Nat) : Char :=
  if n < 10 then Char.ofNat (48 + n) else Char.ofNat (87 + n)

/-- Four hexadecimal digits, lowercase (`'\\u%04x'`). -/
def hex4 (n : Nat) : String :=
  ⟨[hexDigit (n / 4096 % 16), hexDigit (n / 256 % 16),
    hexDigit (n / 16 % 16), hexDigit (n % 16)]⟩

/-- Escaping of one character by Python's `json.dumps` with the default
`ensure_ascii=True`: backslash, quote and the five short escapes are
special-cased, printable ASCII passes through, anything else becomes
`\uXXXX` (a surrogate pair beyond the BMP). -/
def jsonEscapeChar (c : Char) : String :=
  if c = '\\' then "\\\\"
  else if c = '"' then "\\\""
  else if c = '\x08' then "\\b"
  else if c = '\t' then "\\t"
  else if c = '\n' then "\\n"
  else if c = '\x0c' then "\\f"
  else if c = '\r' then "\\r"
  else if 0x20 ≤ c.toNat && c.toNat ≤ 0x7e then ⟨[c]⟩
  else if c.toNat < 0x10000 then "\\u" ++ hex4 c.toNat
  else "\\u" ++ hex4 (0xd800 + (c.toNat - 0x10000) / 0x400) ++
    "\\u" ++ hex4 (0xdc00 + (c.toNat - 0x10000) % 0x400)

/-- The escaped body of a JSON string literal. -/
def jsonEscape (s : String) : String :=
  (s.data.map jsonEscapeChar).foldr (· ++ ·) ""

/-- A JSON string literal: the escaped body wrapped in double quotes. -/
def jsonQuote (s : String) : String :=
  "\"" ++ jsonEscape s ++ "\""

/-- `json.dumps` on a list of strings: quoted items joined by `", "`,
wrapped in square brackets. -/
def jsonDumps (xs : List String) : String :=
  "[" ++ joinSep ", " (xs.map jsonQuote) ++ "]"

/-- `generate_protonmail_filter(domains, emails)`: the sieve rule that files
into folder `miscellaneous` unless the sender is one of the exact emails or
one of the domains. -/
def generate_protonmail_filter (domains emails : List String) : String :=
  "require \"fileinto\";\n\nif not anyof(\n\taddress :is \"from\" " ++
    jsonDumps emails ++
    ",\n\taddress :domain \"from\" " ++ jsonDumps domains ++
    "\n)\n\x7b\n    fileinto \"miscellaneous\";\n\x7d\n"

/-- `generate_gmail_filter(domains, emails)`: `NOT {from:... from:...}` over
`domains + emails`. -/
def generate_gmail_filter (domains emails : List String) : String :=
  "NOT \x7b" ++
    joinSep " " ((domains ++ emails).map fun value => "from:" ++ value) ++
    "\x7d"

/-- The email column of the table. -/
def rowEmails (table : List ContactRow) : List String :=
  table.map ContactRow.email

/-- `values = set([row["email"] for row in reader])`: the deduplicated email
values (one canonical enumeration of the set). -/
def emailSet (table : List ContactRow) : List String :=
  (rowEmails table).dedup

/-- The sorted domain partition handed to the renderers. -/
def sortedDomains (values : List String) : List String :=
  sortAsc (partitionDomains values)

/-- The sorted email partition handed to the renderers. -/
def sortedEmails (values : List String) : List String :=
  sortAsc (partitionEmails values)

/-- The two rendered filter documents (the contents of
`contact-whitelist-protonmail.txt` and `contact-whitelist-gmail.txt`). -/
structure Outputs where
  protonmail : String
  gmail : String
deriving DecidableEq

/-- The pipeline from the deduplicated value set to the two documents:
partition, sort each side, render both documents. -/
def generate_core (values : List String) : Outputs :=
  { protonmail :=
      generate_protonmail_filter (sortedDomains values) (sortedEmails values)
    gmail :=
      generate_gmail_filter (sortedDomains values) (sortedEmails values) }

/-- `generate_contact_whitelist` on a well-formed three-column table. -/
def generate_contact_whitelist (table : List ContactRow) : Outputs :=
  generate_core (emailSet table)

/-- `row["email"]` under `csv.DictReader` with field names
`["relationship", "name", "email"]`: the third field when the row has at
least three columns, `None` otherwise. -/
def rawEmail (row : List String) : Option String :=
  row[2]?

/-- `generate_contact_whitelist` on a raw table whose rows may be
malformed: when some row has no third column its email is `None`, and
`None.startswith` raises, so the run ends in an unhandled error before any
document is produced.  Otherwise the run succeeds with the core pipeline's
documents. -/
def generate_raw (table : List (List String)) : Except String Outputs :=
  if ((table.map rawEmail).dedup).contains none then
    Except.error "AttributeError: 'NoneType' object has no attribute 'startswith'"
  else
    Except.ok (generate_core (((table.map rawEmail).dedup).filterMap id))

/-- `needle` occurs as a contiguous substring of `doc`. -/
def appearsIn (needle doc : String) : Prop :=
  needle.data <:+: doc.data

instance (needle doc : String) : Decidable (appearsIn needle doc) :=
  List.decidableInfix _ _

/-- The example table of the specification. -/
def exampleRows : List ContactRow :=
  [⟨"friend", "A", "alice@x.com"⟩, ⟨"friend", "B", "@y.com"⟩,
   ⟨"friend", "C", "alice@x.com"⟩]

/-- A table whose two email values differ only in letter case. -/
def caseExampleRows : List ContactRow :=
  [⟨"friend", "A", "Alice@x.com"⟩, ⟨"friend", "B", "alice@x.com"⟩]

/-- A table with an empty email value. -/
def emptyEmailRows : List ContactRow :=
  [⟨"friend", "A", ""⟩]

/-! ### Helper lemmas -/

/-- `charListLe` is the complement of the lexicographic strict order on
character lists (Mathlib's `List.Lex (· < ·)`). -/
theorem charListLe_iff_not_lt (as bs : List Char) :
    charListLe as bs = true ↔ ¬ bs < as := by
  induction as generalizing bs with
  | nil =>
    apply iff_of_true rfl
    intro h
    cases h
  | cons a' as ih =>
    cases bs with
    | nil =>
      apply iff_of_false
      · simp [charListLe]
      · intro h
        exact h List.Lex.nil
    | cons b' bs =>
      by_cases hab : a' < b'
      · apply iff_of_true
        · simp [charListLe, hab]
        · intro h
          cases h with
          | cons h' => exact lt_irrefl _ hab
          | rel h' => exact lt_asymm hab h'
      · by_cases hba : b' < a'
        · apply iff_of_false
          · simp [charListLe, hab, hba]
          · intro h
            exact h (List.Lex.rel hba)
        · have heq : a' = b' := le_antisymm (not_lt.1 hba) (not_lt.1 hab)
          subst heq
          have hstep : charListLe (a' :: as) (a' :: bs) = charListLe as bs := by
            simp [charListLe]
          rw [hstep, ih bs]
          constructor
          · intro h hcontra
            cases hcontra with
            | cons h' => exact h h'
            | rel h' => exact lt_irrefl _ h'
          · intro h hcontra
            exact h (List.Lex.cons hcontra)

/-- The embedded comparison agrees with Mathlib's linear order on `String`
(both are code-point lexicographic). -/
theorem strLe_iff_le (a b : String) : strLe a b = true ↔ a ≤ b := by
  rw [strLe, charListLe_iff_not_lt]
  exact (not_congr String.lt_iff_toList_lt).symm

/-- Sorting permutes the input list. -/
theorem sortAsc_perm (l : List String) : (sortAsc l).Perm l :=
  List.perm_insertionSort _ l

/-- The sorted list is sorted for `≤`. -/
theorem sortAsc_sorted_le (l : List String) : (sortAsc l).Sorted (· ≤ ·) :=
  List.Pairwise.imp (fun h => (strLe_iff_le _ _).1 h)
    (List.sorted_insertionSort _ l)

/-- Two lists that are permutations of each other sort to the same list. -/
theorem sortAsc_eq_of_perm {l₁ l₂ : List String} (h : l₁.Perm l₂) :
    sortAsc l₁ = sortAsc l₂ :=
  List.eq_of_perm_of_sorted
    ((sortAsc_perm l₁).trans (h.trans (sortAsc_perm l₂).symm))
    (List.sorted_insertionSort _ _) (List.sorted_insertionSort _ _)

/-- Membership in the domain partition: present and starting with `@`. -/
theorem mem_partitionDomains {values : List String} {v : String} :
    v ∈ partitionDomains values ↔ v ∈ values ∧ startswith v "@" = true := by
  simp [partitionDomains, List.mem_filter]

/-- For a value of the collected set, membership in the `domains` list is
exactly the `startswith` test. -/
theorem contains_partitionDomains (values : List String) (v : String)
    (hv : v ∈ values) :
    (partitionDomains values).contains v = startswith v "@" := by
  rw [Bool.eq_iff_iff]
  show List.elem v (partitionDomains values) = true ↔ _
  rw [List.elem_iff, mem_partitionDomains]
  simp [hv]

/-- `value not in domains` coincides with not starting with `@`, so the
email partition is the complementary filter. -/
theorem partitionEmails_eq_filter (values : List String) :
    partitionEmails values = values.filter fun v => !(startswith v "@") := by
  apply List.filter_congr
  intro v hv
  rw [contains_partitionDomains values v hv]

/-- Membership in the email partition: present and not starting with `@`. -/
theorem mem_partitionEmails {values : List String} {v : String} :
    v ∈ partitionEmails values ↔ v ∈ values ∧ startswith v "@" = false := by
  rw [partitionEmails_eq_filter]
  simp [List.mem_filter]

/-- Every collected value lands in one of the two sorted partitions. -/
theorem mem_sorted_partition {values : List String} {v : String}
    (h : v ∈ values) :
    v ∈ sortedDomains values ∨ v ∈ sortedEmails values := by
  cases hs : startswith v "@" with
  | true =>
    left
    exact (sortAsc_perm _).mem_iff.2 (mem_partitionDomains.2 ⟨h, hs⟩)
  | false =>
    right
    exact (sortAsc_perm _).mem_iff.2 (mem_partitionEmails.2 ⟨h, hs⟩)

/-- A substring of `t` is a substring of `s ++ t`. -/
theorem appearsIn_append_left {n t : String} (s : String) (h : appearsIn n t) :
    appearsIn n (s ++ t) := by
  show n.data <:+: (s ++ t).data
  rw [String.data_append]
  exact List.IsInfix.trans h (List.suffix_append s.data t.data).isInfix

/-- A substring of `s` is a substring of `s ++ t`. -/
theorem appearsIn_append_right {n s : String} (t : String) (h : appearsIn n s) :
    appearsIn n (s ++ t) := by
  show n.data <:+: (s ++ t).data
  rw [String.data_append]
  exact List.IsInfix.trans h (List.prefix_append s.data t.data).isInfix

/-- Every element of the joined list appears in the join. -/
theorem appearsIn_joinSep {x : String} (sep : String) {l : List String}
    (h : x ∈ l) :
    appearsIn x (joinSep sep l) := by
  induction l with
  | nil => cases h
  | cons y rest ih =>
    cases rest with
    | nil =>
      have hx : x = y := List.mem_singleton.1 h
      subst hx
      exact List.infix_rfl
    | cons z rest' =>
      rcases List.mem_cons.1 h with hx | h'
      · subst hx
        show appearsIn x ((x ++ sep) ++ joinSep sep (z :: rest'))
        exact appearsIn_append_right _ (appearsIn_append_right _ List.infix_rfl)
      · show appearsIn x ((y ++ sep) ++ joinSep sep (z :: rest'))
        exact appearsIn_append_left _ (ih h')

/-- Every listed value contributes a visible `from:` item to the gmail
document. -/
theorem appearsIn_gmail_item {domains emails : List String} {v : String}
    (h : v ∈ domains ++ emails) :
    appearsIn ("from:" ++ v) (generate_gmail_filter domains emails) := by
  have h1 := appearsIn_joinSep " "
    (List.mem_map_of_mem (fun value => "from:" ++ value) h)
  show appearsIn _
    (("NOT \x7b" ++
      joinSep " " ((domains ++ emails).map fun value => "from:" ++ value)) ++
      "\x7d")
  exact appearsIn_append_right _ (appearsIn_append_left _ h1)

/-- Every listed value appears verbatim in the gmail document. -/
theorem appearsIn_gmail {domains emails : List String} {v : String}
    (h : v ∈ domains ++ emails) :
    appearsIn v (generate_gmail_filter domains emails) :=
  List.IsInfix.trans (appearsIn_append_left "from:" List.infix_rfl)
    (appearsIn_gmail_item h)

/-- Every listed value appears, JSON-quoted, in the protonmail document:
emails inside the `address :is` list, domains inside the `address :domain`
list. -/
theorem appearsIn_protonmail_quoted {domains emails : List String} {v : String}
    (h : v ∈ domains ∨ v ∈ emails) :
    appearsIn (jsonQuote v) (generate_protonmail_filter domains emails) := by
  rcases h with h | h
  · have h1 : appearsIn (jsonQuote v) (jsonDumps domains) := by
      show appearsIn _ (("[" ++ joinSep ", " (domains.map jsonQuote)) ++ "]")
      exact appearsIn_append_right _
        (appearsIn_append_left _ (appearsIn_joinSep _ (List.mem_map_of_mem _ h)))
    show appearsIn _
      (((("require \"fileinto\";\n\nif not anyof(\n\taddress :is \"from\" " ++
        jsonDumps emails) ++
        ",\n\taddress :domain \"from\" ") ++ jsonDumps domains) ++
        "\n)\n\x7b\n    fileinto \"miscellaneous\";\n\x7d\n")
    exact appearsIn_append_right _ (appearsIn_append_left _ h1)
  · have h1 : appearsIn (jsonQuote v) (jsonDumps emails) := by
      show appearsIn _ (("[" ++ joinSep ", " (emails.map jsonQuote)) ++ "]")
      exact appearsIn_append_right _
        (appearsIn_append_left _ (appearsIn_joinSep _ (List.mem_map_of_mem _ h)))
    show appearsIn _
      (((("require \"fileinto\";\n\nif not anyof(\n\taddress :is \"from\" " ++
        jsonDumps emails) ++
        ",\n\taddress :domain \"from\" ") ++ jsonDumps domains) ++
        "\n)\n\x7b\n    fileinto \"miscellaneous\";\n\x7d\n")
    exact appearsIn_append_right _
      (appearsIn_append_right _
        (appearsIn_append_right _ (appearsIn_append_left _ h1)))


/-! ### Claims -/

/-- C1: for every input table, partitioning the deduplicated email values by
the `@`-prefix test yields the `domains` and `emails` lists; as sets they
are disjoint and their union is the deduplicated set of all email-column
values. -/
theorem claim_partition_disjoint_union (table : List ContactRow) :
    partitionDomains (emailSet table) =
      (emailSet table).filter (fun v => startswith v "@") ∧
    partitionEmails (emailSet table) =
      (emailSet table).filter (fun v => !(startswith v "@")) ∧
    (partitionDomains (emailSet table)).toFinset ∩
      (partitionEmails (emailSet table)).toFinset = ∅ ∧
    (partitionDomains (emailSet table)).toFinset ∪
      (partitionEmails (emailSet table)).toFinset =
      (rowEmails table).toFinset := by
  refine ⟨rfl, partitionEmails_eq_filter _, ?_, ?_⟩
  · ext v
    simp only [Finset.mem_inter, List.mem_toFinset, Finset.not_mem_empty,
      iff_false, not_and]
    intro h1 h2
    have hd := (mem_partitionDomains.1 h1).2
    have he := (mem_partitionEmails.1 h2).2
    rw [hd] at he
    simp at he
  · ext v
    simp only [Finset.mem_union, List.mem_toFinset]
    rw [mem_partitionDomains, mem_partitionEmails]
    constructor
    · rintro (⟨h, _⟩ | ⟨h, _⟩) <;> exact List.mem_dedup.1 h
    · intro h
      have h' : v ∈ emailSet table := List.mem_dedup.2 h
      cases hs : startswith v "@" with
      | true => exact Or.inl ⟨h', rfl⟩
      | false => exact Or.inr ⟨h', rfl⟩

/-- C2: for every input table, both sequences passed to the renderers are
strictly ascending in the code-point lexicographic order on strings, and in
particular duplicate-free. -/
theorem claim_partitions_sorted_nodup (table : List ContactRow) :
    List.Sorted (· < ·) (sortedDomains (emailSet table)) ∧
    List.Sorted (· < ·) (sortedEmails (emailSet table)) ∧
    (sortedDomains (emailSet table)).Nodup ∧
    (sortedEmails (emailSet table)).Nodup := by
  have hnd : (partitionDomains (emailSet table)).Nodup :=
    (List.nodup_dedup _).filter _
  have hne : (partitionEmails (emailSet table)).Nodup :=
    (List.nodup_dedup _).filter _
  have h1 : (sortedDomains (emailSet table)).Nodup :=
    (sortAsc_perm _).nodup_iff.2 hnd
  have h2 : (sortedEmails (emailSet table)).Nodup :=
    (sortAsc_perm _).nodup_iff.2 hne
  exact ⟨(sortAsc_sorted_le _).lt_of_le h1, (sortAsc_sorted_le _).lt_of_le h2,
    h1, h2⟩

/-- C3: the gmail document is `NOT `, an opening brace, the `from:`-prefixed
values of `domains` then `emails` joined by single spaces, and a closing
brace; on the specification's example table it is exactly
`NOT `, brace, `from:@y.com from:alice@x.com`, brace. -/
theorem claim_gmail_document_format :
    (∀ domains emails : List String,
      generate_gmail_filter domains emails =
        "NOT \x7b" ++
          joinSep " " ((domains ++ emails).map fun v => "from:" ++ v) ++
          "\x7d") ∧
    (generate_contact_whitelist exampleRows).gmail =
      "NOT \x7bfrom:@y.com from:alice@x.com\x7d" :=
  ⟨fun _ _ => rfl, by decide⟩

/-- C4: the protonmail document is the rule that files into folder
`miscellaneous` when the sender matches none of the emails (`address :is`)
and none of the domains (`address :domain`), with each match list embedded
as a literal, quoted, comma-separated sequence. -/
theorem claim_protonmail_document_format (domains emails : List String) :
    generate_protonmail_filter domains emails =
      "require \"fileinto\";\n\nif not anyof(\n\taddress :is \"from\" " ++
        ("[" ++ joinSep ", " (emails.map jsonQuote) ++ "]") ++
        ",\n\taddress :domain \"from\" " ++
        ("[" ++ joinSep ", " (domains.map jsonQuote) ++ "]") ++
        "\n)\n\x7b\n    fileinto \"miscellaneous\";\n\x7d\n" ∧
    appearsIn "fileinto \"miscellaneous\";"
      (generate_protonmail_filter domains emails) := by
  constructor
  · rfl
  · show appearsIn _
      (((("require \"fileinto\";\n\nif not anyof(\n\taddress :is \"from\" " ++
        jsonDumps emails) ++
        ",\n\taddress :domain \"from\" ") ++ jsonDumps domains) ++
        "\n)\n\x7b\n    fileinto \"miscellaneous\";\n\x7d\n")
    exact appearsIn_append_left _ (by decide)

/-- C5: the rendered documents are a deterministic function of the set of
email-column values: any two duplicate-free enumerations of the same value
set (any two iteration orders of the Python set) produce equal outputs, and
any two tables with the same email values produce equal outputs. -/
theorem claim_deterministic :
    (∀ vals₁ vals₂ : List String, vals₁.Nodup → vals₂.Nodup →
      (∀ v, v ∈ vals₁ ↔ v ∈ vals₂) →
      generate_core vals₁ = generate_core vals₂) ∧
    (∀ t₁ t₂ : List ContactRow,
      (∀ v, v ∈ rowEmails t₁ ↔ v ∈ rowEmails t₂) →
      generate_contact_whitelist t₁ = generate_contact_whitelist t₂) := by
  have core : ∀ vals₁ vals₂ : List String, vals₁.Nodup → vals₂.Nodup →
      (∀ v, v ∈ vals₁ ↔ v ∈ vals₂) →
      generate_core vals₁ = generate_core vals₂ := by
    intro vals₁ vals₂ h1 h2 hiff
    have hperm : vals₁.Perm vals₂ := (List.perm_ext_iff_of_nodup h1 h2).2 hiff
    have hd : sortedDomains vals₁ = sortedDomains vals₂ :=
      sortAsc_eq_of_perm (hperm.filter _)
    have he : sortedEmails vals₁ = sortedEmails vals₂ := by
      unfold sortedEmails
      rw [partitionEmails_eq_filter, partitionEmails_eq_filter]
      exact sortAsc_eq_of_perm (hperm.filter _)
    unfold generate_core
    rw [hd, he]
  refine ⟨core, ?_⟩
  intro t₁ t₂ hiff
  apply core _ _ (List.nodup_dedup _) (List.nodup_dedup _)
  intro v
  show v ∈ (rowEmails t₁).dedup ↔ v ∈ (rowEmails t₂).dedup
  rw [List.mem_dedup, List.mem_dedup]
  exact hiff v

/-- C5 witness: two enumeration orders of the set with elements `a`, `b`
produce the same outputs. -/
theorem claim_deterministic_witness :
    generate_core ["a", "b"] = generate_core ["b", "a"] :=
  claim_deterministic.1 ["a", "b"] ["b", "a"] (by decide) (by decide)
    (fun v => by simp [List.mem_cons, or_comm])

/-- C6: on the empty table the generator does not fail, both partitions are
empty, and the two documents render with empty match lists. -/
theorem claim_empty_table :
    generate_raw [] = Except.ok (generate_core []) ∧
    sortedDomains [] = [] ∧ sortedEmails [] = [] ∧
    (generate_core []).gmail = "NOT \x7b\x7d" ∧
    (generate_core []).protonmail =
      "require \"fileinto\";\n\nif not anyof(\n\taddress :is \"from\" [],\n\taddress :domain \"from\" []\n)\n\x7b\n    fileinto \"miscellaneous\";\n\x7d\n" :=
  ⟨rfl, rfl, rfl, by decide, by decide⟩

/-- C7 counterexample: on the specification's own example table, the
address `alice@x.com` appears in BOTH rendered documents, so it is false
that every address of the input appears in exactly one of them. -/
theorem claim_round_trip_counterexample :
    ¬ (∀ v ∈ rowEmails exampleRows,
        (appearsIn v (generate_contact_whitelist exampleRows).protonmail ∧
          ¬ appearsIn v (generate_contact_whitelist exampleRows).gmail) ∨
        (¬ appearsIn v (generate_contact_whitelist exampleRows).protonmail ∧
          appearsIn v (generate_contact_whitelist exampleRows).gmail)) := by
  decide

/-- C7 (amended): every address in the input appears in both rendered
documents, verbatim in the gmail document and JSON-quoted in the protonmail
document. -/
theorem claim_address_in_documents (table : List ContactRow) (v : String)
    (hv : v ∈ rowEmails table) :
    appearsIn v (generate_contact_whitelist table).gmail ∧
    appearsIn (jsonQuote v) (generate_contact_whitelist table).protonmail := by
  have hset : v ∈ emailSet table := List.mem_dedup.2 hv
  have hsp := mem_sorted_partition hset
  exact ⟨appearsIn_gmail (List.mem_append.2 hsp),
    appearsIn_protonmail_quoted hsp⟩

/-- C7 witness: `alice@x.com` from the example table appears in both
documents. -/
theorem claim_address_in_documents_witness :
    appearsIn "alice@x.com" (generate_contact_whitelist exampleRows).gmail ∧
    appearsIn (jsonQuote "alice@x.com")
      (generate_contact_whitelist exampleRows).protonmail :=
  claim_address_in_documents exampleRows "alice@x.com" (by decide)

/-- C8: a row with fewer than three columns yields `None` for its email,
and the run fails with the unhandled error raised by
`None.startswith("@")`; no document is produced. -/
theorem claim_malformed_row_fails (table : List (List String))
    (row : List String) (hrow : row ∈ table) (hlen : row.length < 3) :
    generate_raw table =
      Except.error
        "AttributeError: 'NoneType' object has no attribute 'startswith'" := by
  have hnone : rawEmail row = none := by
    unfold rawEmail
    exact List.getElem?_eq_none (by omega)
  have hmem : (none : Option String) ∈ (table.map rawEmail).dedup :=
    List.mem_dedup.2 (hnone ▸ List.mem_map_of_mem rawEmail hrow)
  have hcont : ((table.map rawEmail).dedup).contains none = true := by
    show List.elem none ((table.map rawEmail).dedup) = true
    exact List.elem_iff.2 hmem
  unfold generate_raw
  rw [if_pos hcont]

/-- C8 witness: a table whose only row has two columns makes the run
fail. -/
theorem claim_malformed_row_fails_witness :
    generate_raw [["friend", "A"]] =
      Except.error
        "AttributeError: 'NoneType' object has no attribute 'startswith'" :=
  claim_malformed_row_fails [["friend", "A"]] ["friend", "A"]
    (by decide) (by decide)

/-- C9: an empty email value is kept in the address set, classified into the
email partition (it does not start with `@`), and rendered into both
documents: as the quoted empty string in the protonmail match list and as a
bare `from:` item in the gmail document. -/
theorem claim_empty_email_included (table : List ContactRow) (r : ContactRow)
    (hr : r ∈ table) (he : r.email = "") :
    "" ∈ partitionEmails (emailSet table) ∧
    "" ∉ partitionDomains (emailSet table) ∧
    appearsIn (jsonQuote "") (generate_contact_whitelist table).protonmail ∧
    appearsIn "from:" (generate_contact_whitelist table).gmail := by
  have hmem : "" ∈ emailSet table :=
    List.mem_dedup.2 (he ▸ List.mem_map_of_mem ContactRow.email hr)
  have hs : startswith "" "@" = false := rfl
  have hpe : "" ∈ partitionEmails (emailSet table) :=
    mem_partitionEmails.2 ⟨hmem, hs⟩
  have hse : "" ∈ sortedEmails (emailSet table) :=
    (sortAsc_perm _).mem_iff.2 hpe
  refine ⟨hpe, ?_, ?_, ?_⟩
  · intro hc
    have hd := (mem_partitionDomains.1 hc).2
    rw [hs] at hd
    simp at hd
  · exact appearsIn_protonmail_quoted (Or.inr hse)
  · have hx : ("" : String) ∈
        sortedDomains (emailSet table) ++ sortedEmails (emailSet table) :=
      List.mem_append.2 (Or.inr hse)
    have h1 := appearsIn_gmail_item hx
    rw [show ("from:" ++ "" : String) = "from:" from by decide] at h1
    exact h1

/-- C9 witness: the table with one row whose email is empty. -/
theorem claim_empty_email_included_witness :
    "" ∈ partitionEmails (emailSet emptyEmailRows) ∧
    "" ∉ partitionDomains (emailSet emptyEmailRows) ∧
    appearsIn (jsonQuote "")
      (generate_contact_whitelist emptyEmailRows).protonmail ∧
    appearsIn "from:" (generate_contact_whitelist emptyEmailRows).gmail :=
  claim_empty_email_included emptyEmailRows ⟨"friend", "A", ""⟩
    (by decide) rfl

/-- C10: deduplication is by exact string equality, with no case
normalization: any two distinct email values — in particular two values
differing only in letter case — both stay in the address set and both
appear, separately, in the rendered documents. -/
theorem claim_case_sensitive (table : List ContactRow) (v₁ v₂ : String)
    (h₁ : v₁ ∈ rowEmails table) (h₂ : v₂ ∈ rowEmails table)
    (_hne : v₁ ≠ v₂) :
    (emailSet table).Nodup ∧
    v₁ ∈ emailSet table ∧ v₂ ∈ emailSet table ∧
    appearsIn v₁ (generate_contact_whitelist table).gmail ∧
    appearsIn v₂ (generate_contact_whitelist table).gmail ∧
    appearsIn (jsonQuote v₁) (generate_contact_whitelist table).protonmail ∧
    appearsIn (jsonQuote v₂) (generate_contact_whitelist table).protonmail := by
  have hm₁ : v₁ ∈ emailSet table := List.mem_dedup.2 h₁
  have hm₂ : v₂ ∈ emailSet table := List.mem_dedup.2 h₂
  have hsp₁ := mem_sorted_partition hm₁
  have hsp₂ := mem_sorted_partition hm₂
  exact ⟨List.nodup_dedup _, hm₁, hm₂,
    appearsIn_gmail (List.mem_append.2 hsp₁),
    appearsIn_gmail (List.mem_append.2 hsp₂),
    appearsIn_protonmail_quoted hsp₁, appearsIn_protonmail_quoted hsp₂⟩

/-- C10 witness: `Alice@x.com` and `alice@x.com` are kept as distinct
entries and both appear in both documents. -/
theorem claim_case_sensitive_witness :
    ("Alice@x.com" : String) ≠ "alice@x.com" ∧
    ((emailSet caseExampleRows).Nodup ∧
      "Alice@x.com" ∈ emailSet caseExampleRows ∧
      "alice@x.com" ∈ emailSet caseExampleRows ∧
      appearsIn "Alice@x.com"
        (generate_contact_whitelist caseExampleRows).gmail ∧
      appearsIn "alice@x.com"
        (generate_contact_whitelist caseExampleRows).gmail ∧
      appearsIn (jsonQuote "Alice@x.com")
        (generate_contact_whitelist caseExampleRows).protonmail ∧
      appearsIn (jsonQuote "alice@x.com")
        (generate_contact_whitelist caseExampleRows).protonmail) :=
  ⟨by decide, claim_case_sensitive caseExampleRows _ _
    (by decide) (by decide) (by decide)⟩

end ContactWhitelist
